import Mathlib

/-!
# gopaste: rendezvous and election

A shallow embedding of `gopaste.go` (one file, `package main`).

* Go strings are modelled by Lean `String` (the bytes are taken to be valid UTF-8);
  `len` is the UTF-8 byte length, as in Go.
* Go `int` is modelled by `Int`; `strconv.Atoi` checks the 64-bit range.
* The goroutines of `main` are modelled by a step function on an explicit
  state: every event is one atomic step of one goroutine, chosen by the
  scheduler, with the result of the blocking call (`net.Dial`,
  `listener.Accept`, a copy loop ending) chosen by the environment.
-/

namespace Gopaste

/-! ## Library functions used by the program -/

/-- Go's `strings.Split(s, ":")` on the characters of `s`: the pieces between
the separators; the result always has at least one piece. -/
def splitColon : List Char → List (List Char)
  | [] => [[]]
  | c :: cs =>
    if c = ':' then [] :: splitColon cs
    else
      match splitColon cs with
      | [] => [[c]]
      | p :: ps => (c :: p) :: ps

/-- Go's `strings.Split(address, ":")`. -/
def Split (address : String) : List String :=
  (splitColon address.data).map String.mk

/-- The value of a decimal digit, `none` for any other character
(`ch -= '0'; if ch > 9` in `strconv`). -/
def digitValue (c : Char) : Option Nat :=
  if '0' ≤ c ∧ c ≤ '9' then some (c.toNat - '0'.toNat) else none

/-- The digit loop of `strconv.Atoi`: `n = n*10 + int(ch)`, failing on the
first character that is not a decimal digit. -/
def parseDigits : List Char → Nat → Option Nat
  | [], acc => some acc
  | c :: cs, acc =>
    match digitValue c with
    | none => none
    | some d => parseDigits cs (acc * 10 + d)

/-- Go's `strconv.Atoi` for a 64-bit `int`: an optional sign, then at least one
decimal digit and nothing else; `none` stands for the returned error (syntax
error, or value out of the range of `int`). -/
def Atoi (s : String) : Option Int :=
  match s.data with
  | [] => none
  | c :: rest =>
    let digits := if c = '-' ∨ c = '+' then rest else c :: rest
    if digits = [] then none
    else
      match parseDigits digits 0 with
      | none => none
      | some n =>
        if c = '-' then (if n ≤ 2 ^ 63 then some (-(n : Int)) else none)
        else (if n < 2 ^ 63 then some (n : Int) else none)

/-- Go's `unicode.IsSpace`: the Latin-1 spaces and the code points with the
Unicode White_Space property. -/
def isSpace (c : Char) : Bool :=
  let n := c.toNat
  (9 ≤ n ∧ n ≤ 13) ∨ n = 32 ∨ n = 0x85 ∨ n = 0xA0 ∨ n = 0x1680 ∨
    (0x2000 ≤ n ∧ n ≤ 0x200A) ∨ n = 0x2028 ∨ n = 0x2029 ∨ n = 0x202F ∨
    n = 0x205F ∨ n = 0x3000

/-- Go's `strings.TrimSpace`: all leading and trailing white space removed. -/
def TrimSpace (s : String) : String :=
  ⟨((s.data.dropWhile isSpace).reverse.dropWhile isSpace).reverse⟩

/-- Go's builtin `len` on a string: the number of bytes. -/
def len (s : String) : Nat := s.utf8ByteSize

/-- The decimal digits of `val`, written from the last one backwards into a
buffer of `fuel` bytes (`internal/itoa.Uitoa`, whose buffer has 20 bytes). -/
def uitoaLoop : Nat → Nat → List Char → List Char
  | 0, _, acc => acc
  | fuel + 1, val, acc =>
    if val < 10 then Nat.digitChar val :: acc
    else uitoaLoop fuel (val / 10) (Nat.digitChar (val % 10) :: acc)

/-- Go's `itoa.Uitoa`: the decimal text of an unsigned number. -/
def Uitoa (val : Nat) : String := ⟨uitoaLoop 20 val []⟩

/-- The text of `listener.Addr().String()` for the listener bound by
`net.Listen("tcp", "127.0.0.1:")` when the system assigned it `port`. -/
def listenerAddr (port : Nat) : String := "127.0.0.1:" ++ Uitoa port

/-! ## parsePort -/

/-- Result of a Go call that returns `(value, error)` and may also panic. -/
inductive GoResult (α : Type) where
  | ok (value : α)
  | err
  | panicked
  deriving DecidableEq, Repr

/-- The function `parsePort` of the source: `parts[1]` of the address split at
`":"`, converted by `strconv.Atoi`. Indexing `parts[1]` panics (index out of
range) when the split has a single piece. -/
def parsePort (address : String) : GoResult Int :=
  match (Split address)[1]? with
  | none => .panicked
  | some part =>
    match Atoi part with
    | none => .err
    | some port => .ok port

/-! ## The election loop body (lines 60-82) -/

/-- The `mdns.ServiceEntry` fields the program reads. -/
structure ServiceEntry where
  InfoFields : List String
  deriving DecidableEq, Repr

/-- What one iteration of the election loop does with an entry, up to and
including the call of `net.Dial`. -/
inductive Verdict where
  /-- The filter at line 61 does `continue`, silently. -/
  | discard
  /-- Line 68 prints "failed to parse port from" and the address, then `continue`. -/
  | parseFailure (remoteAddr : String)
  /-- The tie-break at line 74 does `continue`. -/
  | notInitiator
  /-- The call `net.Dial("tcp4", remoteAddr)` at line 78 is made. -/
  | dial (remoteAddr : String)
  /-- The goroutine panics inside `parsePort` (index out of range). -/
  | panicked
  deriving DecidableEq, Repr

/-- Lines 61-78 of `main`: filter, `parsePort`, tie-break. `name` is this
instance's name and `port` its own port. -/
def evalEntry (name : String) (port : Int) (entry : ServiceEntry) : Verdict :=
  if h : entry.InfoFields.length < 2 then .discard
  else if entry.InfoFields[1] ≠ name then .discard
  else
    let remoteAddr := entry.InfoFields[0]
    match parsePort remoteAddr with
    | .panicked => .panicked
    | .err => .parseFailure remoteAddr
    | .ok remotePort =>
      if remotePort ≤ port then .notInitiator
      else .dial remoteAddr

/-- The entry a browsing peer receives for the advertisement registered at
line 52, `setupMDNS([]string{listener.Addr().String(), name})`, by an instance
listening on `port`. -/
def advertisement (name : String) (port : Nat) : ServiceEntry :=
  ⟨[listenerAddr port, name]⟩

/-! ## Start of `main` (lines 17-55) -/

/-- The values `main` keeps for the whole run: the trimmed name and the port
of its own listener. -/
structure Config where
  name : String
  port : Int
  deriving DecidableEq, Repr

/-- The calls `main` makes to the outside world before the goroutines start. -/
inductive SysCall where
  /-- Text written by `fmt.Printf`. -/
  | printf (text : String)
  /-- The call `os.Exit(status)`. -/
  | osExit (status : Nat)
  /-- The call `net.Listen(network, address)`. -/
  | netListen (network address : String)
  /-- The call `setupMDNS(info)`, which registers the advertisement. -/
  | setupMDNS (info : List String)
  /-- The call `panic(err)`. -/
  | panic
  deriving DecidableEq, Repr

/-- The text printed by the closure `usage`, with `prog` for `os.Args[0]`. -/
def usage (prog : String) : String := "Usage: " ++ prog ++ " [name]\n"

/-- Lines 17-55 of `main`, with `os.Args = prog :: args`. `listenPort` is the
port the system assigns to the listener (`none`: `net.Listen` fails) and
`mdnsOk` tells whether `setupMDNS` succeeds. The result is the list of calls
made, in order, and the configuration of the run when start-up succeeds. -/
def mainStartup (prog : String) (args : List String) (listenPort : Option Nat)
    (mdnsOk : Bool) : List SysCall × Option Config :=
  if h : (prog :: args).length ≠ 2 then
    ([.printf (usage prog), .osExit 1], none)
  else
    let name := TrimSpace ((prog :: args)[1])
    if len name < 2 then
      ([.printf (usage prog), .osExit 1], none)
    else
      match listenPort with
      | none => ([.netListen "tcp" "127.0.0.1:", .panic], none)
      | some p =>
        let addr := listenerAddr p
        match parsePort addr with
        | .ok port =>
          if mdnsOk then
            ([.netListen "tcp" "127.0.0.1:", .setupMDNS [addr, name]], some ⟨name, port⟩)
          else
            ([.netListen "tcp" "127.0.0.1:", .setupMDNS [addr, name], .panic], none)
        | _ => ([.netListen "tcp" "127.0.0.1:", .panic], none)

/-! ## The goroutines of `main` (lines 57-124) and `setupPipes` -/

/-- A connection (`net.Conn`), named by a number. -/
abbrev Conn := Nat

/-- Go's `atomic.CompareAndSwapInt32(&addr, old, new)`: the new content of
the cell and whether the swap happened. -/
def CompareAndSwapInt32 (addr old new : Int) : Int × Bool :=
  if addr = old then (new, true) else (addr, false)

/-- The two places of `main` that end up with a connection. -/
inductive Path where
  /-- The election goroutine, after `net.Dial` (lines 78-92). -/
  | dial
  /-- The accept loop of `main`, after `listener.Accept` (lines 106-121). -/
  | accept
  deriving DecidableEq, Repr

/-- The two copy goroutines started by `setupPipes`. -/
inductive Direction where
  /-- Writer: `writer.ReadFrom(os.Stdin)`. -/
  | stdinToConn
  /-- Reader: `reader.WriteTo(os.Stdout)`. -/
  | connToStdout
  deriving DecidableEq, Repr

/-- The observable actions of the goroutines, recorded in the order they happen. -/
inductive Effect where
  /-- A line written by `fmt.Println`. -/
  | println (text : String)
  /-- A call of `atomic.CompareAndSwapInt32(&done, 0, 1)` and its result. -/
  | compareAndSwap (path : Path) (swapped : Bool)
  /-- The call `listener.Close()`. -/
  | listenerClose
  /-- The call `close(entriesCh)`. -/
  | closeEntriesCh
  /-- The call `mdnsServer.Shutdown()`. -/
  | mdnsShutdown
  /-- The call `setupPipes(conn, exit)`. -/
  | setupPipes (path : Path) (conn : Conn)
  /-- The receive `<-exit` of `main` completes. -/
  | exitReceive
  deriving DecidableEq, Repr

/-- Where the election goroutine (lines 59-94) stands. -/
inductive ElectionPc where
  /-- At `for entry := range entriesCh`. -/
  | ranging
  /-- Inside `net.Dial("tcp4", remoteAddr)`, line 78. -/
  | dialing (remoteAddr : String)
  /-- The compare-and-swap of line 85 succeeded; lines 86-88 come next. -/
  | won (conn : Conn)
  /-- Before `setupPipes(conn, exit)`, line 91. -/
  | piping (conn : Conn)
  /-- The goroutine has returned. -/
  | finished
  deriving DecidableEq, Repr

/-- Where the main goroutine (lines 105-124) stands. -/
inductive MainPc where
  /-- Inside `listener.Accept()`, line 106. -/
  | accepting
  /-- The compare-and-swap of line 115 succeeded; lines 116-117 come next. -/
  | won (conn : Conn)
  /-- Before `setupPipes(conn, exit)`, line 120. -/
  | piping (conn : Conn)
  /-- At `<-exit`, line 123. -/
  | waiting
  /-- The function `main` has returned: the process is over. -/
  | returned
  deriving DecidableEq, Repr

/-- Where a copy goroutine of `setupPipes` stands. -/
inductive CopyPc where
  /-- Inside `ReadFrom` or `WriteTo`. -/
  | copying
  /-- At `exit <- true`, waiting for a receiver (the channel has no buffer). -/
  | sending
  /-- The goroutine has returned. -/
  | stopped
  deriving DecidableEq, Repr

/-- The two goroutines started by one call of `setupPipes`. -/
structure Pipe where
  conn : Conn
  writer : CopyPc
  reader : CopyPc
  deriving DecidableEq, Repr

/-- The state of the goroutine of `p` that copies in direction `d`. -/
def Pipe.get (p : Pipe) : Direction → CopyPc
  | .stdinToConn => p.writer
  | .connToStdout => p.reader

/-- The pipe `p` with the goroutine of direction `d` moved to `pc`. -/
def Pipe.set (p : Pipe) (d : Direction) (pc : CopyPc) : Pipe :=
  match d with
  | .stdinToConn => { p with writer := pc }
  | .connToStdout => { p with reader := pc }

/-- The function `setupPipes` of the source: it starts the writer and the
reader goroutine on `conn` and returns. -/
def setupPipes (conn : Conn) : Pipe := ⟨conn, .copying, .copying⟩

/-- The list `pipes` with `f` applied to the pipe at index `i`, if there is one. -/
def updatePipe (f : Pipe → Pipe) : Nat → List Pipe → List Pipe
  | _, [] => []
  | 0, p :: ps => f p :: ps
  | i + 1, p :: ps => p :: updatePipe f i ps

/-- The state shared by the goroutines, and where each of them stands. -/
structure State where
  /-- The variable `done` of line 37. -/
  done : Int
  /-- The entries buffered in `entriesCh` (capacity 100), oldest first. -/
  entriesCh : List ServiceEntry
  /-- Whether `close(entriesCh)` has been called. -/
  entriesChClosed : Bool
  election : ElectionPc
  main : MainPc
  /-- One element for every call of `setupPipes`, in call order. -/
  pipes : List Pipe
  /-- Whether some goroutine has panicked, which ends the process. -/
  crashed : Bool
  trace : List Effect
  deriving DecidableEq, Repr

/-- The state when the goroutines start: `var done int32 = 0`, an empty
`entriesCh`, the election goroutine at its `range`, `main` in `Accept`. -/
def initState : State :=
  { done := 0, entriesCh := [], entriesChClosed := false, election := .ranging,
    main := .accepting, pipes := [], crashed := false, trace := [] }

/-- One atomic step of one goroutine; the scheduler and the environment
choose which. -/
inductive Event where
  /-- A running `mdns.Lookup("_gopaste._tcp", entriesCh)` sends an entry. -/
  | lookupSend (entry : ServiceEntry)
  /-- The election goroutine takes its next entry and runs lines 61-78 on it
  (or finds the channel closed and drained). -/
  | electionRecv
  /-- The call `net.Dial` returns (`none`: an error), then lines 79-85. -/
  | dialReturn (result : Option Conn)
  /-- Lines 86-88. -/
  | electionTeardown
  /-- Lines 91-92. -/
  | electionPipes
  /-- The call `listener.Accept` returns (`none`: an error), then lines 107-115.
  The environment chooses the result, also when `listener.Close()` has been
  called: an accept that was already under way may still hand out a connection. -/
  | acceptReturn (result : Option Conn)
  /-- Lines 116-117. -/
  | mainTeardown
  /-- Lines 120-121. -/
  | mainPipes
  /-- A copy loop of the pipe at index `pipe` ends (end of input or an error). -/
  | copyDone (pipe : Nat) (dir : Direction)
  /-- The send `exit <- true` of a copy goroutine meets the receive `<-exit` of `main`. -/
  | exitHandoff (pipe : Nat) (dir : Direction)
  deriving DecidableEq, Repr

/-- The statement `close(entriesCh)`: closing a closed channel panics. -/
def closeEntries (s : State) : State :=
  if s.entriesChClosed then { s with crashed := true }
  else { s with entriesChClosed := true, trace := s.trace ++ [.closeEntriesCh] }

/-- The step of a process that is still alive. -/
def stepLive (cfg : Config) (s : State) : Event → State
  | .lookupSend entry =>
    -- a send on a closed channel panics; a full buffer takes no more entries
    if s.entriesChClosed then { s with crashed := true }
    else if s.entriesCh.length < 100 then { s with entriesCh := s.entriesCh ++ [entry] }
    else s
  | .electionRecv =>
    match s.election, s.entriesCh with
    | .ranging, [] =>
      if s.entriesChClosed then { s with election := .finished } else s
    | .ranging, entry :: rest =>
      match evalEntry cfg.name cfg.port entry with
      | .discard => { s with entriesCh := rest }
      | .parseFailure remoteAddr =>
        { s with entriesCh := rest,
                 trace := s.trace ++ [.println ("failed to parse port from " ++ remoteAddr)] }
      | .notInitiator => { s with entriesCh := rest }
      | .dial remoteAddr => { s with entriesCh := rest, election := .dialing remoteAddr }
      | .panicked => { s with entriesCh := rest, crashed := true }
    | _, _ => s
  | .dialReturn result =>
    match s.election, result with
    | .dialing remoteAddr, none =>
      { s with election := .ranging,
               trace := s.trace ++ [.println ("Failed to connect to: " ++ remoteAddr)] }
    | .dialing _, some conn =>
      let (done, swapped) := CompareAndSwapInt32 s.done 0 1
      { s with done := done,
               election := if swapped then .won conn else .piping conn,
               trace := s.trace ++ [.compareAndSwap .dial swapped] }
    | _, _ => s
  | .electionTeardown =>
    match s.election with
    | .won conn =>
      let s1 := closeEntries { s with trace := s.trace ++ [.listenerClose] }
      if s1.crashed then s1
      else { s1 with election := .piping conn, trace := s1.trace ++ [.mdnsShutdown] }
    | _ => s
  | .electionPipes =>
    match s.election with
    | .piping conn =>
      { s with election := .finished, pipes := s.pipes ++ [setupPipes conn],
               trace := s.trace ++ [.setupPipes .dial conn] }
    | _ => s
  | .acceptReturn result =>
    match s.main, result with
    | .accepting, none =>
      if s.done = 1 then { s with main := .waiting } else { s with crashed := true }
    | .accepting, some conn =>
      let (done, swapped) := CompareAndSwapInt32 s.done 0 1
      { s with done := done,
               main := if swapped then .won conn else .piping conn,
               trace := s.trace ++ [.compareAndSwap .accept swapped] }
    | _, _ => s
  | .mainTeardown =>
    match s.main with
    | .won conn =>
      let s1 := closeEntries s
      if s1.crashed then s1
      else { s1 with main := .piping conn, trace := s1.trace ++ [.mdnsShutdown] }
    | _ => s
  | .mainPipes =>
    match s.main with
    | .piping conn =>
      { s with main := .waiting, pipes := s.pipes ++ [setupPipes conn],
               trace := s.trace ++ [.setupPipes .accept conn] }
    | _ => s
  | .copyDone i dir =>
    let finish := fun (p : Pipe) => if p.get dir = .copying then p.set dir .sending else p
    { s with pipes := updatePipe finish i s.pipes }
  | .exitHandoff i dir =>
    match s.main, s.pipes[i]? with
    | .waiting, some p =>
      if p.get dir = .sending then
        { s with main := .returned,
                 pipes := updatePipe (fun q => q.set dir .stopped) i s.pipes,
                 trace := s.trace ++ [.exitReceive] }
      else s
    | _, _ => s

/-- One step of the program: nothing runs once a goroutine has panicked or
`main` has returned. -/
def step (cfg : Config) (s : State) (ev : Event) : State :=
  if s.crashed ∨ s.main = .returned then s else stepLive cfg s ev

/-- The state after the events `evs`, from `s`. -/
def runFrom (cfg : Config) (s : State) (evs : List Event) : State :=
  evs.foldl (step cfg) s

/-- The state after the events `evs`, from the start of the goroutines. -/
def run (cfg : Config) (evs : List Event) : State :=
  runFrom cfg initState evs

/-- The number of calls of `setupPipes` recorded in a trace. -/
def pipesStarted (trace : List Effect) : Nat :=
  trace.countP fun e => match e with
    | .setupPipes _ _ => true
    | _ => false

/-- The number of calls of `setupPipes` made by `path` recorded in a trace. -/
def pipesStartedBy (path : Path) (trace : List Effect) : Nat :=
  trace.countP fun e => match e with
    | .setupPipes p _ => p = path
    | _ => false

/-- The number of compare-and-swap calls that returned true in a trace. -/
def swapsWon (trace : List Effect) : Nat :=
  trace.countP fun e => match e with
    | .compareAndSwap _ swapped => swapped
    | _ => false

/-- The number of compare-and-swap calls of `path` that returned true in a trace. -/
def swapsWonBy (path : Path) (trace : List Effect) : Nat :=
  trace.countP fun e => match e with
    | .compareAndSwap p swapped => swapped && decide (p = path)
    | _ => false

/-- The number of calls of `listener.Close()` recorded in a trace. -/
def listenerCloses (trace : List Effect) : Nat := trace.count .listenerClose

/-- The number of calls of `close(entriesCh)` recorded in a trace. -/
def queueCloses (trace : List Effect) : Nat := trace.count .closeEntriesCh

/-- The number of calls of `mdnsServer.Shutdown()` recorded in a trace. -/
def advertiserShutdowns (trace : List Effect) : Nat := trace.count .mdnsShutdown

/-- The number of completed receives `<-exit` recorded in a trace. -/
def exitReceives (trace : List Effect) : Nat := trace.count .exitReceive

/-- The number of goroutines of a pipe that have handed their signal to
`<-exit` and returned (0, 1 or 2). -/
def Pipe.signalsHanded (p : Pipe) : Nat :=
  (if p.writer = .stopped then 1 else 0) + (if p.reader = .stopped then 1 else 0)

/-- The number of copy goroutines, over all pipes, that have handed their
signal to `<-exit` and returned. -/
def signalsHanded (pipes : List Pipe) : Nat :=
  (pipes.map Pipe.signalsHanded).sum

/-- The number 1 when the election goroutine has won the swap and not yet run
lines 86-88, else 0. -/
def electionPending (s : State) : Nat :=
  match s.election with
  | .won _ => 1
  | _ => 0

/-- The number 1 when the main goroutine has won the swap and not yet run
lines 116-117, else 0. -/
def mainPending (s : State) : Nat :=
  match s.main with
  | .won _ => 1
  | _ => 0

/-- The number 1 when the election goroutine has returned, else 0. -/
def electionOver (s : State) : Nat :=
  match s.election with
  | .finished => 1
  | _ => 0

/-- The number 1 when the main goroutine is past its accept loop (at `<-exit`
or returned), else 0. -/
def mainPastLoop (s : State) : Nat :=
  match s.main with
  | .waiting => 1
  | .returned => 1
  | _ => 0

/-- The number 1 when `main` has returned, else 0. -/
def mainReturned (s : State) : Nat :=
  match s.main with
  | .returned => 1
  | _ => 0

/-- The number 1 when `entriesCh` is closed, else 0. -/
def queueClosed (s : State) : Nat := if s.entriesChClosed then 1 else 0

/-- The facts that hold in every state the program can reach. -/
structure Reachable (s : State) : Prop where
  done01 : s.done = 0 ∨ s.done = 1
  swaps : s.done = ((swapsWonBy .dial s.trace + swapsWonBy .accept s.trace : Nat) : Int)
  swapsTotal : swapsWon s.trace = swapsWonBy .dial s.trace + swapsWonBy .accept s.trace
  listener : listenerCloses s.trace + electionPending s = swapsWonBy .dial s.trace
  queue : queueCloses s.trace + electionPending s + mainPending s
    = swapsWonBy .dial s.trace + swapsWonBy .accept s.trace
  queueFlag : queueClosed s = queueCloses s.trace
  advertiser : advertiserShutdowns s.trace + electionPending s + mainPending s
    = swapsWonBy .dial s.trace + swapsWonBy .accept s.trace
  dialPipes : pipesStartedBy .dial s.trace ≤ electionOver s
  acceptPipes : pipesStartedBy .accept s.trace ≤ mainPastLoop s
  pipesTotal : pipesStarted s.trace
    = pipesStartedBy .dial s.trace + pipesStartedBy .accept s.trace
  pipesList : s.pipes.length = pipesStarted s.trace
  exits : exitReceives s.trace = mainReturned s
  exitsAfterPipe : mainReturned s ≤ s.pipes.length

/-! ## Facts about the library functions -/

theorem digitValue_digitChar (d : Nat) (h : d < 10) :
    digitValue (Nat.digitChar d) = some d := by
  interval_cases d <;> decide

theorem digitChar_not_separator (d : Nat) (h : d < 10) :
    Nat.digitChar d ≠ ':' ∧ Nat.digitChar d ≠ '-' ∧ Nat.digitChar d ≠ '+' := by
  interval_cases d <;> decide

theorem parseDigits_append (xs ys : List Char) (acc : Nat) :
    parseDigits (xs ++ ys) acc = (parseDigits xs acc).bind (parseDigits ys) := by
  induction xs generalizing acc with
  | nil => simp [parseDigits]
  | cons c cs ih =>
    simp only [List.cons_append, parseDigits]
    cases digitValue c with
    | none => simp
    | some d => simpa using ih (acc * 10 + d)

theorem uitoaLoop_append (fuel val : Nat) (acc : List Char) :
    uitoaLoop fuel val acc = uitoaLoop fuel val [] ++ acc := by
  induction fuel generalizing val acc with
  | zero => simp [uitoaLoop]
  | succ f ih =>
    simp only [uitoaLoop]
    split
    · simp
    · rw [ih (val / 10) (Nat.digitChar (val % 10) :: acc),
        ih (val / 10) [Nat.digitChar (val % 10)]]
      simp

theorem parseDigits_uitoaLoop (fuel val : Nat) (h : val < 10 ^ fuel) :
    parseDigits (uitoaLoop fuel val []) 0 = some val := by
  induction fuel generalizing val with
  | zero =>
    have : val = 0 := by simpa using h
    simp [uitoaLoop, parseDigits, this]
  | succ f ih =>
    simp only [uitoaLoop]
    split
    · rename_i hlt
      simp [parseDigits, digitValue_digitChar val hlt]
    · have hdiv : val / 10 < 10 ^ f := by
        rw [Nat.div_lt_iff_lt_mul (by norm_num)]
        simpa [pow_succ] using h
      rw [uitoaLoop_append, parseDigits_append, ih _ hdiv]
      simp [parseDigits, digitValue_digitChar (val % 10) (Nat.mod_lt _ (by norm_num))]
      omega

theorem uitoaLoop_digits (fuel val : Nat) (acc : List Char) :
    ∀ c ∈ uitoaLoop fuel val acc, c ∈ acc ∨ ∃ d, d < 10 ∧ c = Nat.digitChar d := by
  induction fuel generalizing val acc with
  | zero => intro c hc; exact Or.inl (by simpa [uitoaLoop] using hc)
  | succ f ih =>
    intro c hc
    simp only [uitoaLoop] at hc
    split at hc
    · rename_i hlt
      rcases List.mem_cons.mp hc with h | h
      · exact Or.inr ⟨val, hlt, h⟩
      · exact Or.inl h
    · rcases ih _ _ c hc with h | h
      · rcases List.mem_cons.mp h with h | h
        · exact Or.inr ⟨val % 10, Nat.mod_lt _ (by norm_num), h⟩
        · exact Or.inl h
      · exact Or.inr h

theorem uitoaLoop_ne_nil (fuel val : Nat) (acc : List Char) :
    uitoaLoop (fuel + 1) val acc ≠ [] := by
  rw [uitoaLoop_append]
  simp only [uitoaLoop]
  split <;> simp
  rw [uitoaLoop_append]
  simp

theorem splitColon_of_no_colon (l : List Char) (h : ∀ c ∈ l, c ≠ ':') :
    splitColon l = [l] := by
  induction l with
  | nil => rfl
  | cons c cs ih =>
    have hc : c ≠ ':' := h c (List.mem_cons_self _ _)
    have := ih (fun x hx => h x (List.mem_cons_of_mem _ hx))
    simp [splitColon, hc, this]

theorem splitColon_append_colon (xs ys : List Char) (h : ∀ c ∈ xs, c ≠ ':') :
    splitColon (xs ++ ':' :: ys) = xs :: splitColon ys := by
  induction xs with
  | nil => simp [splitColon]
  | cons c cs ih =>
    have hc : c ≠ ':' := h c (List.mem_cons_self _ _)
    have := ih (fun x hx => h x (List.mem_cons_of_mem _ hx))
    simp [splitColon, hc, this]

theorem Atoi_Uitoa (port : Nat) (h : port < 2 ^ 63) : Atoi (Uitoa port) = some (port : Int) := by
  have hparse : parseDigits (uitoaLoop 20 port []) 0 = some port :=
    parseDigits_uitoaLoop 20 port (lt_trans h (by norm_num))
  have hne : uitoaLoop 20 port [] ≠ [] := uitoaLoop_ne_nil 19 port []
  have hdig := uitoaLoop_digits 20 port []
  unfold Atoi Uitoa
  cases hl : uitoaLoop 20 port [] with
  | nil => exact absurd hl hne
  | cons c rest =>
    have hc : c ≠ '-' ∧ c ≠ '+' := by
      rcases hdig c (by simp [hl]) with h0 | ⟨d, hd, rfl⟩
      · simp at h0
      · exact (digitChar_not_separator d hd).2
    rw [hl] at hparse
    have h63 : port < 9223372036854775808 := by simpa using h
    simp [hc.1, hc.2, hparse, h63]

/-- The port read back by `parsePort` from a listener address is the port the
listener is bound to (line 46 of `main`, and every peer reading line 66). -/
theorem parsePort_listenerAddr (port : Nat) (h : port < 2 ^ 63) :
    parsePort (listenerAddr port) = .ok (port : Int) := by
  have hsplit : Split (listenerAddr port) = ["127.0.0.1", Uitoa port] := by
    have hdata : (listenerAddr port).data
        = "127.0.0.1".data ++ ':' :: uitoaLoop 20 port [] := by
      simp [listenerAddr, Uitoa, String.data_append]
    have hnc : ∀ c ∈ uitoaLoop 20 port [], c ≠ ':' := by
      intro c hc
      rcases uitoaLoop_digits 20 port [] c hc with h0 | ⟨d, hd, rfl⟩
      · simp at h0
      · exact (digitChar_not_separator d hd).1
    unfold Split
    rw [hdata, splitColon_append_colon _ _ (by decide), splitColon_of_no_colon _ hnc]
    simp [Uitoa]
  unfold parsePort
  rw [hsplit]
  simp [Atoi_Uitoa port h]

/-- An address without any `":"` makes `parsePort` panic, and only such an
address does: with a separator the result is a port or an error. -/
theorem parsePort_panicked_iff (address : String) :
    parsePort address = .panicked ↔ ':' ∉ address.data := by
  have hsplit : ∀ l : List Char, (':' ∉ l → splitColon l = [l]) ∧
      (':' ∈ l → 2 ≤ (splitColon l).length) := by
    intro l
    induction l with
    | nil => simp [splitColon]
    | cons c cs ih =>
      constructor
      · intro h
        exact splitColon_of_no_colon _ (fun x hx hxe => h (hxe ▸ hx))
      · intro h
        by_cases hc : c = ':'
        · simp only [splitColon, hc, if_true, List.length_cons]
          cases hs : splitColon cs with
          | nil =>
            by_cases hm : ':' ∈ cs
            · have := ih.2 hm
              simp [hs] at this
            · have := ih.1 hm
              simp [hs] at this
          | cons p ps => simp
        · have hm : ':' ∈ cs := by
            rcases List.mem_cons.mp h with h | h
            · exact absurd h.symm hc
            · exact h
          have := ih.2 hm
          simp only [splitColon, hc, if_false]
          cases hs : splitColon cs with
          | nil => simp [hs] at this
          | cons p ps => simpa [hs] using this
  unfold parsePort Split
  by_cases hm : ':' ∈ address.data
  · have hlen := (hsplit address.data).2 hm
    cases hs : splitColon address.data with
    | nil => simp [hs] at hlen
    | cons p ps =>
      cases ps with
      | nil => simp [hs] at hlen
      | cons q qs =>
        simp only [List.map_cons, List.getElem?_cons_succ, List.getElem?_cons_zero]
        cases Atoi (String.mk q) <;> simp [hm]
  · simp [(hsplit address.data).1 hm, hm]

/-- A valid invocation with one argument starts up with the trimmed name and
the port of its own listener, and registers the advertisement that
`advertisement` describes. -/
theorem mainStartup_running (prog a : String) (p : Nat) (hp : p < 65536)
    (hlen : 2 ≤ len (TrimSpace a)) :
    mainStartup prog [a] (some p) true =
      ([.netListen "tcp" "127.0.0.1:",
        .setupMDNS (advertisement (TrimSpace a) p).InfoFields],
       some ⟨TrimSpace a, (p : Int)⟩) := by
  have hport := parsePort_listenerAddr p (by omega)
  have hlt : ¬ len (TrimSpace a) < 2 := by omega
  simp [mainStartup, hlt, hport, advertisement]

/-! ## The tie-break (claims C1-C4) -/

/-- C1: for an entry with at least two info fields whose name field is the
local name and whose address parses to `candidatePort`, the loop body calls
`net.Dial` on the candidate's address if and only if `candidatePort > ownPort`;
with `candidatePort ≤ ownPort` (equality is the self-echo) it continues
without dialing. The same holds for the election goroutine taking the entry
from the queue: it ends up inside `net.Dial` exactly when
`candidatePort > ownPort`. -/
theorem evalEntry_dial_iff (name : String) (ownPort candidatePort : Int)
    (entry : ServiceEntry) (addr : String)
    (hlen : 2 ≤ entry.InfoFields.length)
    (hname : entry.InfoFields[1]? = some name)
    (haddr : entry.InfoFields[0]? = some addr)
    (hport : parsePort addr = .ok candidatePort) :
    (evalEntry name ownPort entry = .dial addr ↔ candidatePort > ownPort) ∧
    ((∃ a, evalEntry name ownPort entry = .dial a) ↔ candidatePort > ownPort) ∧
    (candidatePort ≤ ownPort → evalEntry name ownPort entry = .notInitiator) ∧
    (∀ (s : State) (rest : List ServiceEntry), s.crashed = false → s.main ≠ .returned →
      s.election = .ranging → s.entriesCh = entry :: rest →
      ((step ⟨name, ownPort⟩ s .electionRecv).election = .dialing addr
        ↔ candidatePort > ownPort)) := by
  obtain ⟨fields⟩ := entry
  match fields, hlen with
  | f0 :: f1 :: more, _ =>
    simp only [List.getElem?_cons_succ, List.getElem?_cons_zero, Option.some.injEq] at hname haddr
    subst hname haddr
    have hverdict : evalEntry f1 ownPort ⟨f0 :: f1 :: more⟩
        = if candidatePort ≤ ownPort then .notInitiator else .dial f0 := by
      simp [evalEntry, hport]
    refine ⟨?_, ?_, ?_, ?_⟩
    · rw [hverdict]; split <;> simp <;> omega
    · rw [hverdict]; split <;> simp <;> omega
    · intro hle; rw [hverdict]; simp [hle]
    · intro s rest hc hm hpc hq
      have hlive : ¬ (s.crashed = true ∨ s.main = .returned) := by simp [hc, hm]
      simp only [step, hlive, if_false, stepLive, hpc, hq, hverdict]
      by_cases hle : candidatePort ≤ ownPort
      · simp [hle, hpc]
      · simp only [hle, if_false]
        simp
        omega

/-- C1, at a concrete input: the name "demo", own port 51000 and a candidate at port 51200. -/
theorem evalEntry_dial_iff_witness :
    (evalEntry "demo" 51000 ⟨["127.0.0.1:51200", "demo"]⟩ = .dial "127.0.0.1:51200"
      ↔ (51200 : Int) > 51000) :=
  (evalEntry_dial_iff "demo" 51000 51200 ⟨["127.0.0.1:51200", "demo"]⟩ "127.0.0.1:51200"
    (by decide) (by decide) (by decide) (by decide)).1

/-- C2: of two instances with the same name and own ports `portA < portB`,
each reading the advertisement of the other, A (the lower port) calls
`net.Dial` on the address of B and B does not dial: exactly one of the two
initiates. -/
theorem lowest_port_initiates (name : String) (portA portB : Nat)
    (hlt : portA < portB) (hB : portB < 65536) :
    evalEntry name portA (advertisement name portB) = .dial (listenerAddr portB) ∧
    evalEntry name portB (advertisement name portA) = .notInitiator := by
  have hA := parsePort_listenerAddr portA (by omega)
  have hB := parsePort_listenerAddr portB (by omega)
  constructor
  · simp [evalEntry, advertisement, hB]
    omega
  · simp [evalEntry, advertisement, hA]
    omega

/-- C2 at A = 51000 and B = 51200: A is the initiator, B the responder. -/
theorem lowest_port_initiates_witness :
    evalEntry "demo" 51000 (advertisement "demo" 51200) = .dial (listenerAddr 51200) ∧
    evalEntry "demo" 51200 (advertisement "demo" 51000) = .notInitiator :=
  lowest_port_initiates "demo" 51000 51200 (by decide) (by decide)

/-- C3, as stated, fails: of the instances at ports 51000 and 51200 the one
with the higher port does not dial, the one with the lower port does. -/
theorem higher_port_does_not_initiate :
    ¬ (evalEntry "demo" 51200 (advertisement "demo" 51000) = .dial (listenerAddr 51000)) ∧
    evalEntry "demo" 51200 (advertisement "demo" 51000) = .notInitiator ∧
    evalEntry "demo" 51000 (advertisement "demo" 51200) = .dial (listenerAddr 51200) := by
  decide

/-- C3, amended: of two instances with the same name and distinct own ports,
each reading the advertisement of the other, exactly one calls `net.Dial`,
and it is the one with the lower port; the one with the higher port does not
dial and is left to accept. -/
theorem exactly_one_initiator_lower_port (name : String) (portA portB : Nat)
    (hne : portA ≠ portB) (hA : portA < 65536) (hB : portB < 65536) :
    ((evalEntry name portA (advertisement name portB) = .dial (listenerAddr portB))
      ↔ ¬ (evalEntry name portB (advertisement name portA) = .dial (listenerAddr portA))) ∧
    ((evalEntry name portA (advertisement name portB) = .dial (listenerAddr portB))
      ↔ portA < portB) ∧
    ((evalEntry name portB (advertisement name portA) = .dial (listenerAddr portA))
      ↔ portB < portA) ∧
    (portA < portB → evalEntry name portB (advertisement name portA) = .notInitiator) := by
  have hpA := parsePort_listenerAddr portA (by omega)
  have hpB := parsePort_listenerAddr portB (by omega)
  have hAB : evalEntry name portA (advertisement name portB)
      = if portB ≤ portA then .notInitiator else .dial (listenerAddr portB) := by
    simp [evalEntry, advertisement, hpB]
  have hBA : evalEntry name portB (advertisement name portA)
      = if portA ≤ portB then .notInitiator else .dial (listenerAddr portA) := by
    simp [evalEntry, advertisement, hpA]
  rw [hAB, hBA]
  refine ⟨?_, ?_, ?_, ?_⟩
  · split <;> split <;> simp <;> omega
  · split <;> simp <;> omega
  · split <;> simp <;> omega
  · intro h; simp [h.le]

/-- C3 amended, at the ports 51200 and 51000: the instance at 51200 is not the initiator. -/
theorem exactly_one_initiator_lower_port_witness :
    (evalEntry "demo" 51200 (advertisement "demo" 51000) = .dial (listenerAddr 51000))
      ↔ 51200 < 51000 :=
  (exactly_one_initiator_lower_port "demo" 51200 51000 (by decide) (by decide) (by decide)).2.1

/-- C4: an entry with fewer than two info fields, or whose second info field
is not the local name, is discarded by the filter whatever its first field
is: the verdict is a silent `continue`, and the election goroutine that takes
it from the queue only drops it (no dial, no output, no other change). -/
theorem evalEntry_discards_foreign (name : String) (port : Int) (entry : ServiceEntry)
    (h : entry.InfoFields.length < 2 ∨ entry.InfoFields[1]? ≠ some name) :
    evalEntry name port entry = .discard ∧
    (∀ a, evalEntry name port entry ≠ .dial a) ∧
    (∀ (s : State) (rest : List ServiceEntry), s.crashed = false → s.main ≠ .returned →
      s.election = .ranging → s.entriesCh = entry :: rest →
      step ⟨name, port⟩ s .electionRecv = { s with entriesCh := rest }) := by
  have hverdict : evalEntry name port entry = .discard := by
    unfold evalEntry
    split
    · rfl
    · rename_i hlen
      have hne : entry.InfoFields[1] ≠ name := by
        rcases h with h | h
        · exact absurd h hlen
        · intro heq
          apply h
          rw [List.getElem?_eq_getElem (by omega), heq]
      simp [hne]
  refine ⟨hverdict, ?_, ?_⟩
  · intro a; rw [hverdict]; simp
  · intro s rest hc hm hpc hq
    have hlive : ¬ (s.crashed = true ∨ s.main = .returned) := by simp [hc, hm]
    simp only [step, hlive, if_false, stepLive, hpc, hq, hverdict]

/-- C4 at a concrete input: an advertisement of the name "other" read by an instance named "demo". -/
theorem evalEntry_discards_foreign_witness :
    evalEntry "demo" 51000 ⟨["127.0.0.1:51200", "other"]⟩ = .discard :=
  (evalEntry_discards_foreign "demo" 51000 ⟨["127.0.0.1:51200", "other"]⟩
    (Or.inr (by decide))).1

/-! ## Facts about every reachable state -/

theorem updatePipe_length (f : Pipe → Pipe) (i : Nat) (ps : List Pipe) :
    (updatePipe f i ps).length = ps.length := by
  induction ps generalizing i with
  | nil => cases i <;> rfl
  | cons p ps ih => cases i <;> simp [updatePipe, ih]

theorem swapsWonBy_dial_snoc (t : List Effect) (e : Effect) :
    swapsWonBy .dial (t ++ [e]) = swapsWonBy .dial t +
      (match e with
        | .compareAndSwap .dial true => 1
        | _ => 0) := by
  rcases e with _ | ⟨_ | _, _ | _⟩ | _ | _ | _ | _ | _ <;>
    simp [swapsWonBy, List.countP_append, List.countP_cons]

theorem swapsWonBy_accept_snoc (t : List Effect) (e : Effect) :
    swapsWonBy .accept (t ++ [e]) = swapsWonBy .accept t +
      (match e with
        | .compareAndSwap .accept true => 1
        | _ => 0) := by
  rcases e with _ | ⟨_ | _, _ | _⟩ | _ | _ | _ | _ | _ <;>
    simp [swapsWonBy, List.countP_append, List.countP_cons]

theorem swapsWon_snoc (t : List Effect) (e : Effect) :
    swapsWon (t ++ [e]) = swapsWon t +
      (match e with
        | .compareAndSwap _ true => 1
        | _ => 0) := by
  cases e <;> simp [swapsWon, List.countP_append]
  rename_i q b
  cases b <;> simp

theorem pipesStartedBy_dial_snoc (t : List Effect) (e : Effect) :
    pipesStartedBy .dial (t ++ [e]) = pipesStartedBy .dial t +
      (match e with
        | .setupPipes .dial _ => 1
        | _ => 0) := by
  rcases e with _ | _ | _ | _ | _ | ⟨_ | _, _⟩ | _ <;>
    simp [pipesStartedBy, List.countP_append, List.countP_cons]

theorem pipesStartedBy_accept_snoc (t : List Effect) (e : Effect) :
    pipesStartedBy .accept (t ++ [e]) = pipesStartedBy .accept t +
      (match e with
        | .setupPipes .accept _ => 1
        | _ => 0) := by
  rcases e with _ | _ | _ | _ | _ | ⟨_ | _, _⟩ | _ <;>
    simp [pipesStartedBy, List.countP_append, List.countP_cons]

theorem pipesStarted_snoc (t : List Effect) (e : Effect) :
    pipesStarted (t ++ [e]) = pipesStarted t +
      (match e with
        | .setupPipes _ _ => 1
        | _ => 0) := by
  cases e <;> simp [pipesStarted, List.countP_append]

theorem listenerCloses_snoc (t : List Effect) (e : Effect) :
    listenerCloses (t ++ [e]) = listenerCloses t +
      (match e with
        | .listenerClose => 1
        | _ => 0) := by
  cases e <;> simp [listenerCloses, List.count_append]

theorem queueCloses_snoc (t : List Effect) (e : Effect) :
    queueCloses (t ++ [e]) = queueCloses t +
      (match e with
        | .closeEntriesCh => 1
        | _ => 0) := by
  cases e <;> simp [queueCloses, List.count_append]

theorem advertiserShutdowns_snoc (t : List Effect) (e : Effect) :
    advertiserShutdowns (t ++ [e]) = advertiserShutdowns t +
      (match e with
        | .mdnsShutdown => 1
        | _ => 0) := by
  cases e <;> simp [advertiserShutdowns, List.count_append]

theorem exitReceives_snoc (t : List Effect) (e : Effect) :
    exitReceives (t ++ [e]) = exitReceives t +
      (match e with
        | .exitReceive => 1
        | _ => 0) := by
  cases e <;> simp [exitReceives, List.count_append]

theorem initState_reachable : Reachable initState := by
  constructor <;> simp [initState, swapsWonBy, swapsWon, pipesStarted, pipesStartedBy, electionPending, mainPending, listenerCloses, queueCloses, advertiserShutdowns, exitReceives, electionOver, mainPastLoop, mainReturned, queueClosed]

set_option linter.unusedTactic false in
set_option linter.unreachableTactic false in
theorem stepLive_reachable (cfg : Config) (s : State) (ev : Event) (hc : s.crashed = false)
    (h : Reachable s) : Reachable (stepLive cfg s ev) := by
  obtain ⟨h1, h2, h3, h4, h5, h6, h7, h8, h9, h10, h11, h12, h13⟩ := h
  cases ev with
  | lookupSend entry =>
    simp only [stepLive]
    split
    · exact ⟨h1, h2, h3, h4, h5, h6, h7, h8, h9, h10, h11, h12, h13⟩
    · split
      · exact ⟨h1, h2, h3, h4, h5, h6, h7, h8, h9, h10, h11, h12, h13⟩
      · exact ⟨h1, h2, h3, h4, h5, h6, h7, h8, h9, h10, h11, h12, h13⟩
  | electionRecv =>
    simp only [stepLive]
    split
    · split
      · rename_i heq _ _
        constructor <;>
          simp only [electionPending, mainPending, electionOver, mainPastLoop, mainReturned,
            queueClosed, heq] at * <;> first | assumption | omega | simp
      · exact ⟨h1, h2, h3, h4, h5, h6, h7, h8, h9, h10, h11, h12, h13⟩
    · rename_i heq _
      split <;> constructor <;>
          simp only [electionPending, mainPending, electionOver, mainPastLoop, mainReturned,
            queueClosed, heq, swapsWonBy_dial_snoc, swapsWonBy_accept_snoc, swapsWon_snoc, pipesStartedBy_dial_snoc, pipesStartedBy_accept_snoc,
            pipesStarted_snoc, listenerCloses_snoc, queueCloses_snoc, advertiserShutdowns_snoc,
            exitReceives_snoc] at * <;> first | assumption | omega | simp
    · exact ⟨h1, h2, h3, h4, h5, h6, h7, h8, h9, h10, h11, h12, h13⟩
  | dialReturn result =>
    simp only [stepLive, CompareAndSwapInt32]
    split
    · rename_i heq
      constructor <;>
          simp only [electionPending, mainPending, electionOver, mainPastLoop, mainReturned,
            queueClosed, heq, swapsWonBy_dial_snoc, swapsWonBy_accept_snoc, swapsWon_snoc, pipesStartedBy_dial_snoc, pipesStartedBy_accept_snoc,
            pipesStarted_snoc, listenerCloses_snoc, queueCloses_snoc, advertiserShutdowns_snoc,
            exitReceives_snoc] at * <;> first | assumption | omega | simp
    · rename_i heq
      split <;> rename_i hd <;> constructor <;>
          simp only [electionPending, mainPending, electionOver, mainPastLoop, mainReturned,
            queueClosed, heq, hd, swapsWonBy_dial_snoc, swapsWonBy_accept_snoc, swapsWon_snoc, pipesStartedBy_dial_snoc, pipesStartedBy_accept_snoc,
            pipesStarted_snoc, listenerCloses_snoc, queueCloses_snoc, advertiserShutdowns_snoc,
            exitReceives_snoc, if_true, if_false] at * <;> first | assumption | omega | simp
    · exact ⟨h1, h2, h3, h4, h5, h6, h7, h8, h9, h10, h11, h12, h13⟩
  | electionTeardown =>
    simp only [stepLive, closeEntries]
    split
    · rename_i heq
      have hq : s.entriesChClosed = false := by
        simp only [electionPending, mainPending, queueClosed, heq] at h5 h6
        cases hb : s.entriesChClosed
        · rfl
        · simp only [hb, if_true] at h6; omega
      simp only [hq, Bool.false_eq_true, if_false, hc]
      constructor <;>
          simp only [electionPending, mainPending, electionOver, mainPastLoop, mainReturned,
            queueClosed, heq, hq, swapsWonBy_dial_snoc, swapsWonBy_accept_snoc, swapsWon_snoc,
            pipesStartedBy_dial_snoc, pipesStartedBy_accept_snoc,
            pipesStarted_snoc, listenerCloses_snoc, queueCloses_snoc, advertiserShutdowns_snoc,
            exitReceives_snoc, if_true, if_false, Bool.false_eq_true] at * <;>
          first | assumption | omega | simp
    · exact ⟨h1, h2, h3, h4, h5, h6, h7, h8, h9, h10, h11, h12, h13⟩
  | electionPipes =>
    simp only [stepLive]
    split
    · rename_i heq
      constructor <;>
          simp only [electionPending, mainPending, electionOver, mainPastLoop, mainReturned,
            queueClosed, heq, swapsWonBy_dial_snoc, swapsWonBy_accept_snoc, swapsWon_snoc,
            pipesStartedBy_dial_snoc, pipesStartedBy_accept_snoc,
            pipesStarted_snoc, listenerCloses_snoc, queueCloses_snoc, advertiserShutdowns_snoc,
            exitReceives_snoc, if_true, if_false, Bool.false_eq_true, List.length_append,
            List.length_singleton, updatePipe_length] at * <;>
          first | assumption | omega | simp
    · exact ⟨h1, h2, h3, h4, h5, h6, h7, h8, h9, h10, h11, h12, h13⟩
  | acceptReturn result =>
    simp only [stepLive, CompareAndSwapInt32]
    split
    · rename_i heq
      split <;> constructor <;>
          simp only [electionPending, mainPending, electionOver, mainPastLoop, mainReturned,
            queueClosed, heq, swapsWonBy_dial_snoc, swapsWonBy_accept_snoc, swapsWon_snoc,
            pipesStartedBy_dial_snoc, pipesStartedBy_accept_snoc,
            pipesStarted_snoc, listenerCloses_snoc, queueCloses_snoc, advertiserShutdowns_snoc,
            exitReceives_snoc, if_true, if_false, Bool.false_eq_true, List.length_append,
            List.length_singleton, updatePipe_length] at * <;>
          first | assumption | omega | simp
    · rename_i heq
      split <;> rename_i hd <;> constructor <;>
          simp only [electionPending, mainPending, electionOver, mainPastLoop, mainReturned,
            queueClosed, heq, hd, swapsWonBy_dial_snoc, swapsWonBy_accept_snoc, swapsWon_snoc,
            pipesStartedBy_dial_snoc, pipesStartedBy_accept_snoc,
            pipesStarted_snoc, listenerCloses_snoc, queueCloses_snoc, advertiserShutdowns_snoc,
            exitReceives_snoc, if_true, if_false, Bool.false_eq_true, List.length_append,
            List.length_singleton, updatePipe_length] at * <;>
          first | assumption | omega | simp
    · exact ⟨h1, h2, h3, h4, h5, h6, h7, h8, h9, h10, h11, h12, h13⟩
  | mainTeardown =>
    simp only [stepLive, closeEntries]
    split
    · rename_i heq
      have hq : s.entriesChClosed = false := by
        simp only [electionPending, mainPending, queueClosed, heq] at h5 h6
        cases hb : s.entriesChClosed
        · rfl
        · simp only [hb, if_true] at h6; omega
      simp only [hq, Bool.false_eq_true, if_false, hc]
      constructor <;>
          simp only [electionPending, mainPending, electionOver, mainPastLoop, mainReturned,
            queueClosed, heq, hq, swapsWonBy_dial_snoc, swapsWonBy_accept_snoc, swapsWon_snoc,
            pipesStartedBy_dial_snoc, pipesStartedBy_accept_snoc,
            pipesStarted_snoc, listenerCloses_snoc, queueCloses_snoc, advertiserShutdowns_snoc,
            exitReceives_snoc, if_true, if_false, Bool.false_eq_true, List.length_append,
            List.length_singleton, updatePipe_length] at * <;>
          first | assumption | omega | simp
    · exact ⟨h1, h2, h3, h4, h5, h6, h7, h8, h9, h10, h11, h12, h13⟩
  | mainPipes =>
    simp only [stepLive]
    split
    · rename_i heq
      constructor <;>
          simp only [electionPending, mainPending, electionOver, mainPastLoop, mainReturned,
            queueClosed, heq, swapsWonBy_dial_snoc, swapsWonBy_accept_snoc, swapsWon_snoc,
            pipesStartedBy_dial_snoc, pipesStartedBy_accept_snoc,
            pipesStarted_snoc, listenerCloses_snoc, queueCloses_snoc, advertiserShutdowns_snoc,
            exitReceives_snoc, if_true, if_false, Bool.false_eq_true, List.length_append,
            List.length_singleton, updatePipe_length] at * <;>
          first | assumption | omega | simp
    · exact ⟨h1, h2, h3, h4, h5, h6, h7, h8, h9, h10, h11, h12, h13⟩
  | copyDone i dir =>
    simp only [stepLive]
    exact ⟨h1, h2, h3, h4, h5, h6, h7, h8, h9, h10, by simpa [updatePipe_length] using h11, h12,
      by simpa [updatePipe_length] using h13⟩
  | exitHandoff i dir =>
    simp only [stepLive]
    split
    · rename_i p heq hp
      have hlen : 1 ≤ s.pipes.length := by
        rcases Nat.lt_or_ge i s.pipes.length with hi | hi
        · omega
        · rw [List.getElem?_eq_none hi] at hp
          exact absurd hp (by simp)
      split
      · constructor <;>
          simp only [electionPending, mainPending, electionOver, mainPastLoop, mainReturned,
            queueClosed, heq, swapsWonBy_dial_snoc, swapsWonBy_accept_snoc, swapsWon_snoc,
            pipesStartedBy_dial_snoc, pipesStartedBy_accept_snoc,
            pipesStarted_snoc, listenerCloses_snoc, queueCloses_snoc, advertiserShutdowns_snoc,
            exitReceives_snoc, if_true, if_false, Bool.false_eq_true, List.length_append,
            List.length_singleton, updatePipe_length] at * <;>
          first | assumption | omega | simp
      · exact ⟨h1, h2, h3, h4, h5, h6, h7, h8, h9, h10, h11, h12, h13⟩
    · exact ⟨h1, h2, h3, h4, h5, h6, h7, h8, h9, h10, h11, h12, h13⟩

theorem step_reachable (cfg : Config) (s : State) (ev : Event) (h : Reachable s) :
    Reachable (step cfg s ev) := by
  unfold step
  split
  · exact h
  · rename_i hlive
    have hc : s.crashed = false := by
      cases hb : s.crashed
      · rfl
      · exact absurd (Or.inl hb) hlive
    exact stepLive_reachable cfg s ev hc h

theorem runFrom_reachable (cfg : Config) (s : State) (evs : List Event) (h : Reachable s) :
    Reachable (runFrom cfg s evs) := by
  induction evs generalizing s with
  | nil => exact h
  | cons ev evs ih => exact ih (step cfg s ev) (step_reachable cfg s ev h)

theorem run_reachable (cfg : Config) (evs : List Event) : Reachable (run cfg evs) :=
  runFrom_reachable cfg initState evs initState_reachable

theorem runFrom_append (cfg : Config) (s : State) (evs more : List Event) :
    runFrom cfg s (evs ++ more) = runFrom cfg (runFrom cfg s evs) more := by
  simp [runFrom, List.foldl_append]

/-- A step leaves `done` as it is, or it is a compare-and-swap that finds 0,
writes 1 and returns true. -/
theorem step_done (cfg : Config) (s : State) (ev : Event) :
    (step cfg s ev).done = s.done ∨
    (s.done = 0 ∧ (step cfg s ev).done = 1 ∧
      ∃ path, (step cfg s ev).trace = s.trace ++ [.compareAndSwap path true]) := by
  unfold step
  split
  · exact Or.inl rfl
  · cases ev <;> simp only [stepLive, CompareAndSwapInt32, closeEntries]
    case dialReturn result =>
      split
      · exact Or.inl rfl
      · split
        · rename_i hd
          exact Or.inr ⟨hd, rfl, .dial, rfl⟩
        · exact Or.inl rfl
      · exact Or.inl rfl
    case acceptReturn result =>
      split
      · split <;> exact Or.inl rfl
      · split
        · rename_i hd
          exact Or.inr ⟨hd, rfl, .accept, rfl⟩
        · exact Or.inl rfl
      · exact Or.inl rfl
    all_goals
      (try split) <;> (try split) <;> (try split) <;>
        first | exact Or.inl rfl | exact Or.inl trivial

theorem runFrom_done_stays (cfg : Config) (s : State) (evs : List Event) (h : s.done = 1) :
    (runFrom cfg s evs).done = 1 := by
  induction evs generalizing s with
  | nil => exact h
  | cons ev evs ih =>
    apply ih (step cfg s ev)
    rcases step_done cfg s ev with h1 | ⟨h0, _, _⟩
    · rw [h1, h]
    · rw [h] at h0; exact absurd h0 (by decide)

/-! ## The exit channel -/

theorem signalsHanded_snoc (ps : List Pipe) (conn : Conn) :
    signalsHanded (ps ++ [setupPipes conn]) = signalsHanded ps := by
  simp [signalsHanded, setupPipes, Pipe.signalsHanded]

theorem signalsHanded_updatePipe (f : Pipe → Pipe) (i : Nat) (ps : List Pipe) (p : Pipe)
    (h : ps[i]? = some p) :
    signalsHanded (updatePipe f i ps) + p.signalsHanded
      = signalsHanded ps + (f p).signalsHanded := by
  induction ps generalizing i with
  | nil => simp at h
  | cons q qs ih =>
    cases i with
    | zero =>
      simp only [List.getElem?_cons_zero, Option.some.injEq] at h
      subst h
      simp [updatePipe, signalsHanded]
      omega
    | succ j =>
      simp only [List.getElem?_cons_succ] at h
      have := ih j h
      simp only [updatePipe, signalsHanded, List.map_cons, List.sum_cons] at this ⊢
      omega

theorem signalsHanded_updatePipe_same (f : Pipe → Pipe) (i : Nat) (ps : List Pipe)
    (hf : ∀ p, (f p).signalsHanded = p.signalsHanded) :
    signalsHanded (updatePipe f i ps) = signalsHanded ps := by
  induction ps generalizing i with
  | nil => cases i <;> rfl
  | cons q qs ih =>
    cases i with
    | zero => simp [updatePipe, signalsHanded, hf]
    | succ j =>
      have := ih j
      simp only [updatePipe, signalsHanded, List.map_cons, List.sum_cons] at this ⊢
      omega

theorem updatePipe_getElem? (f : Pipe → Pipe) (i : Nat) (ps : List Pipe) (p : Pipe)
    (h : ps[i]? = some p) : (updatePipe f i ps)[i]? = some (f p) := by
  induction ps generalizing i with
  | nil => simp at h
  | cons q qs ih =>
    cases i with
    | zero =>
      simp only [List.getElem?_cons_zero, Option.some.injEq] at h
      simp [updatePipe, h]
    | succ j =>
      simp only [List.getElem?_cons_succ] at h
      simpa [updatePipe] using ih j h

set_option linter.unusedTactic false in
set_option linter.unreachableTactic false in
set_option linter.unnecessarySeqFocus false in
theorem stepLive_signals (cfg : Config) (s : State) (ev : Event)
    (h : signalsHanded s.pipes = exitReceives s.trace) :
    signalsHanded (stepLive cfg s ev).pipes = exitReceives (stepLive cfg s ev).trace := by
  cases ev with
  | copyDone i dir =>
    simp only [stepLive]
    rw [signalsHanded_updatePipe_same, h]
    intro p
    cases dir <;> simp only [Pipe.get, Pipe.set, Pipe.signalsHanded] <;> split <;> simp_all
  | exitHandoff i dir =>
    simp only [stepLive]
    split
    · rename_i p hm hp
      split
      · rename_i hs
        have := signalsHanded_updatePipe (fun q => q.set dir .stopped) i s.pipes p hp
        simp only [] at this
        simp only [exitReceives_snoc]
        have hd : (p.set dir .stopped).signalsHanded = p.signalsHanded + 1 := by
          cases dir <;> simp_all [Pipe.get, Pipe.set, Pipe.signalsHanded] <;> omega
        omega
      · exact h
    · exact h
  | _ =>
    simp only [stepLive, closeEntries, CompareAndSwapInt32]
    (try split) <;> (try split) <;> (try split) <;>
      (try simp only [exitReceives_snoc, signalsHanded_snoc]) <;> first | exact h | omega
theorem updatePipe_getElem?_of_ne (f : Pipe → Pipe) (i j : Nat) (ps : List Pipe)
    (h : i ≠ j) : (updatePipe f j ps)[i]? = ps[i]? := by
  induction ps generalizing i j with
  | nil => cases j <;> rfl
  | cons q qs ih =>
    cases j with
    | zero =>
      cases i with
      | zero => exact absurd rfl h
      | succ k => simp [updatePipe]
    | succ m =>
      cases i with
      | zero => simp [updatePipe]
      | succ k =>
        simp only [updatePipe, List.getElem?_cons_succ]
        exact ih k m (fun hk => h (by omega))

theorem step_signals (cfg : Config) (s : State) (ev : Event)
    (h : signalsHanded s.pipes = exitReceives s.trace) :
    signalsHanded (step cfg s ev).pipes = exitReceives (step cfg s ev).trace := by
  unfold step
  split
  · exact h
  · exact stepLive_signals cfg s ev h

theorem run_signals (cfg : Config) (evs : List Event) :
    signalsHanded (run cfg evs).pipes = exitReceives (run cfg evs).trace := by
  have key : ∀ (s : State), signalsHanded s.pipes = exitReceives s.trace →
      signalsHanded (runFrom cfg s evs).pipes = exitReceives (runFrom cfg s evs).trace := by
    induction evs with
    | nil => intro s h; exact h
    | cons ev evs ih => intro s h; exact ih (step cfg s ev) (step_signals cfg s ev h)
  exact key initState rfl

set_option linter.unusedTactic false in
set_option linter.unreachableTactic false in
/-- The function `main` returns only in a step that hands a signal from a copy
goroutine standing at `exit <- true` to the receive `<-exit`. -/
theorem step_returns_only_by_handoff (cfg : Config) (s : State) (ev : Event)
    (hne : s.main ≠ .returned) (h : (step cfg s ev).main = .returned) :
    ∃ i dir p, ev = .exitHandoff i dir ∧ s.main = .waiting ∧ s.pipes[i]? = some p ∧
      p.get dir = .sending := by
  unfold step at h
  split at h
  · exact absurd h hne
  · cases ev with
    | exitHandoff i dir =>
      simp only [stepLive] at h
      split at h
      · rename_i p hm hp
        split at h
        · rename_i hs
          exact ⟨i, dir, p, rfl, hm, hp, hs⟩
        · exact absurd h hne
      · exact absurd h hne
    | acceptReturn result =>
      exfalso
      simp only [stepLive, CompareAndSwapInt32] at h
      split at h
      · split at h
        · simp at h
        · exact hne h
      · split at h <;> simp at h
      · exact hne h
    | mainTeardown =>
      exfalso
      simp only [stepLive, closeEntries] at h
      split at h
      · (try split at h) <;> (try split at h) <;> (try split at h) <;>
          first | exact hne h | simp at h
      · exact hne h
    | mainPipes =>
      exfalso
      simp only [stepLive] at h
      split at h
      · simp at h
      · exact hne h
    | lookupSend entry =>
      exfalso
      simp only [stepLive] at h
      split at h
      · exact hne h
      · split at h <;> exact hne h
    | electionRecv =>
      exfalso
      simp only [stepLive] at h
      split at h
      · split at h <;> exact hne h
      · split at h <;> exact hne h
      · exact hne h
    | dialReturn result =>
      exfalso
      simp only [stepLive, CompareAndSwapInt32] at h
      split at h
      · exact hne h
      · split at h <;> exact hne h
      · exact hne h
    | electionTeardown =>
      exfalso
      simp only [stepLive, closeEntries] at h
      split at h
      · (try split at h) <;> (try split at h) <;> (try split at h) <;>
          first | exact hne h | simp at h
      · exact hne h
    | electionPipes =>
      exfalso
      simp only [stepLive] at h
      split at h <;> exact hne h
    | copyDone i dir =>
      exfalso
      simp only [stepLive] at h
      exact hne h

set_option linter.unusedTactic false in
/-- A copy goroutine stands at `exit <- true` only after its own copy loop
has ended: a step puts direction `dir` of pipe `i` at the send only if it is
the event `copyDone i dir` on a goroutine that was still copying. -/
theorem step_sending_only_by_copyDone (cfg : Config) (s : State) (ev : Event) (i : Nat)
    (dir : Direction) (p q : Pipe) (hp : s.pipes[i]? = some p)
    (hq : (step cfg s ev).pipes[i]? = some q) (hs : q.get dir = .sending) :
    p.get dir = .sending ∨ (ev = .copyDone i dir ∧ p.get dir = .copying) := by
  have hi : i < s.pipes.length := by
    rcases Nat.lt_or_ge i s.pipes.length with hi | hi
    · exact hi
    · rw [List.getElem?_eq_none hi] at hp
      exact absurd hp (by simp)
  have same : ∀ ps : List Pipe, ps[i]? = some q →
      (ps = s.pipes ∨ ∃ x, ps = s.pipes ++ [x]) → p.get dir = .sending := by
    intro ps hps hor
    rcases hor with rfl | ⟨x, rfl⟩
    · rw [hp] at hps
      cases hps
      exact hs
    · rw [List.getElem?_append_left hi, hp] at hps
      cases hps
      exact hs
  unfold step at hq
  split at hq
  · exact Or.inl (same _ hq (Or.inl rfl))
  · cases ev with
    | copyDone j d =>
      simp only [stepLive] at hq
      by_cases hij : i = j
      · subst hij
        rw [updatePipe_getElem? _ _ _ p hp] at hq
        simp only [Option.some.injEq] at hq
        subst hq
        by_cases hc : p.get d = .copying
        · simp only [hc, if_true] at hs
          by_cases hd : d = dir
          · subst hd
            exact Or.inr ⟨rfl, hc⟩
          · left
            cases d <;> cases dir <;> simp_all [Pipe.get, Pipe.set]
        · simp only [hc, if_false] at hs
          exact Or.inl hs
      · rw [updatePipe_getElem?_of_ne _ _ _ _ hij, hp] at hq
        cases hq
        exact Or.inl hs
    | exitHandoff j d =>
      simp only [stepLive] at hq
      split at hq
      · split at hq
        · simp only [] at hq
          by_cases hij : i = j
          · subst hij
            rw [updatePipe_getElem? _ _ _ p hp] at hq
            simp only [Option.some.injEq] at hq
            subst hq
            left
            cases d <;> cases dir <;> simp_all [Pipe.get, Pipe.set]
          · rw [updatePipe_getElem?_of_ne _ _ _ _ hij, hp] at hq
            cases hq
            exact Or.inl hs
        · exact Or.inl (same _ hq (Or.inl rfl))
      · exact Or.inl (same _ hq (Or.inl rfl))
    | electionPipes =>
      simp only [stepLive] at hq
      split at hq
      · exact Or.inl (same _ hq (Or.inr ⟨_, rfl⟩))
      · exact Or.inl (same _ hq (Or.inl rfl))
    | mainPipes =>
      simp only [stepLive] at hq
      split at hq
      · exact Or.inl (same _ hq (Or.inr ⟨_, rfl⟩))
      · exact Or.inl (same _ hq (Or.inl rfl))
    | lookupSend entry =>
      simp only [stepLive] at hq
      split at hq
      · exact Or.inl (same _ hq (Or.inl rfl))
      · split at hq <;> exact Or.inl (same _ hq (Or.inl rfl))
    | electionRecv =>
      simp only [stepLive] at hq
      split at hq
      · split at hq <;> exact Or.inl (same _ hq (Or.inl rfl))
      · split at hq <;> exact Or.inl (same _ hq (Or.inl rfl))
      · exact Or.inl (same _ hq (Or.inl rfl))
    | dialReturn result =>
      simp only [stepLive, CompareAndSwapInt32] at hq
      split at hq
      · exact Or.inl (same _ hq (Or.inl rfl))
      · split at hq <;> exact Or.inl (same _ hq (Or.inl rfl))
      · exact Or.inl (same _ hq (Or.inl rfl))
    | electionTeardown =>
      simp only [stepLive, closeEntries] at hq
      split at hq
      · (try split at hq) <;> (try split at hq) <;> (try split at hq) <;>
          exact Or.inl (same _ hq (Or.inl rfl))
      · exact Or.inl (same _ hq (Or.inl rfl))
    | acceptReturn result =>
      simp only [stepLive, CompareAndSwapInt32] at hq
      split at hq
      · split at hq <;> exact Or.inl (same _ hq (Or.inl rfl))
      · split at hq <;> exact Or.inl (same _ hq (Or.inl rfl))
      · exact Or.inl (same _ hq (Or.inl rfl))
    | mainTeardown =>
      simp only [stepLive, closeEntries] at hq
      split at hq
      · (try split at hq) <;> (try split at hq) <;> (try split at hq) <;>
          exact Or.inl (same _ hq (Or.inl rfl))
      · exact Or.inl (same _ hq (Or.inl rfl))

/-! ## The decision flag and the pipes (claims C5-C8) -/

/-- C5, as stated, fails. In the run below the accept path wins the swap and
starts its pipe on connection 7; the dial that was under way then succeeds
with connection 8 in a state where `done = 1`: its compare-and-swap fails,
and `setupPipes` is called on connection 8 all the same. Two pipes are
started. -/
theorem lost_swap_still_starts_pipe :
    (run ⟨"demo", 51000⟩ [.lookupSend ⟨["127.0.0.1:51200", "demo"]⟩, .electionRecv,
      .acceptReturn (some 7), .mainTeardown, .mainPipes]).done = 1 ∧
    (run ⟨"demo", 51000⟩ [.lookupSend ⟨["127.0.0.1:51200", "demo"]⟩, .electionRecv,
      .acceptReturn (some 7), .mainTeardown, .mainPipes,
      .dialReturn (some 8), .electionPipes]).trace =
      [.compareAndSwap .accept true, .closeEntriesCh, .mdnsShutdown, .setupPipes .accept 7,
        .compareAndSwap .dial false, .setupPipes .dial 8] ∧
    pipesStarted (run ⟨"demo", 51000⟩ [.lookupSend ⟨["127.0.0.1:51200", "demo"]⟩,
      .electionRecv, .acceptReturn (some 7), .mainTeardown, .mainPipes,
      .dialReturn (some 8), .electionPipes]).trace = 2 := by
  decide

/-- C5, amended: in a state where `done = 1`, a dial that succeeds, or an
accept that returns a connection, fails its compare-and-swap and releases
nothing, but the connection is kept and `setupPipes` is called on it. Each
path calls `setupPipes` at most once in a run, so a run calls it at most
twice. -/
theorem lost_swap_pipes_at_most_twice (cfg : Config) (evs : List Event) :
    (∀ (s : State) (addr : String) (conn : Conn), s.done = 1 → s.crashed = false →
      s.main ≠ .returned → s.election = .dialing addr →
      runFrom cfg s [.dialReturn (some conn), .electionPipes] =
        { s with election := .finished, pipes := s.pipes ++ [setupPipes conn],
                 trace := s.trace ++ [.compareAndSwap .dial false, .setupPipes .dial conn] }) ∧
    (∀ (s : State) (conn : Conn), s.done = 1 → s.crashed = false → s.main = .accepting →
      runFrom cfg s [.acceptReturn (some conn), .mainPipes] =
        { s with main := .waiting, pipes := s.pipes ++ [setupPipes conn],
                 trace := s.trace ++ [.compareAndSwap .accept false, .setupPipes .accept conn] }) ∧
    pipesStartedBy .dial (run cfg evs).trace ≤ 1 ∧
    pipesStartedBy .accept (run cfg evs).trace ≤ 1 ∧
    pipesStarted (run cfg evs).trace ≤ 2 := by
  have hr := run_reachable cfg evs
  have hd : pipesStartedBy .dial (run cfg evs).trace ≤ 1 := by
    have := hr.dialPipes
    unfold electionOver at this
    split at this <;> omega
  have ha : pipesStartedBy .accept (run cfg evs).trace ≤ 1 := by
    have := hr.acceptPipes
    unfold mainPastLoop at this
    split at this <;> omega
  refine ⟨?_, ?_, hd, ha, ?_⟩
  · intro s addr conn hdone hc hm hpc
    have hlive : ¬ (s.crashed = true ∨ s.main = .returned) := by simp [hc, hm]
    simp [runFrom, step, hlive, hc, hm, stepLive, hpc, hdone, CompareAndSwapInt32]
  · intro s conn hdone hc hm
    simp [runFrom, step, hc, hm, stepLive, hdone, CompareAndSwapInt32]
  · rw [hr.pipesTotal]; omega

/-- C5 amended, at a concrete state: the accept path has won, and the dial to
"127.0.0.1:51200" then succeeds with connection 8. -/
theorem lost_swap_pipes_at_most_twice_witness :
    runFrom ⟨"demo", 51000⟩
      (run ⟨"demo", 51000⟩ [.lookupSend ⟨["127.0.0.1:51200", "demo"]⟩, .electionRecv,
        .acceptReturn (some 7), .mainTeardown, .mainPipes])
      [.dialReturn (some 8), .electionPipes] =
    { run ⟨"demo", 51000⟩ [.lookupSend ⟨["127.0.0.1:51200", "demo"]⟩, .electionRecv,
        .acceptReturn (some 7), .mainTeardown, .mainPipes] with
      election := .finished,
      pipes := (run ⟨"demo", 51000⟩ [.lookupSend ⟨["127.0.0.1:51200", "demo"]⟩, .electionRecv,
        .acceptReturn (some 7), .mainTeardown, .mainPipes]).pipes ++ [setupPipes 8],
      trace := (run ⟨"demo", 51000⟩ [.lookupSend ⟨["127.0.0.1:51200", "demo"]⟩, .electionRecv,
        .acceptReturn (some 7), .mainTeardown, .mainPipes]).trace
          ++ [.compareAndSwap .dial false, .setupPipes .dial 8] } :=
  (lost_swap_pipes_at_most_twice ⟨"demo", 51000⟩ []).1
    (run ⟨"demo", 51000⟩ [.lookupSend ⟨["127.0.0.1:51200", "demo"]⟩, .electionRecv,
      .acceptReturn (some 7), .mainTeardown, .mainPipes])
    "127.0.0.1:51200" 8 (by decide) (by decide) (by decide) (by decide)

/-- C6: `done` starts at 0; in every reachable state it is 0 or 1; every step
leaves it as it is or is a compare-and-swap that finds 0, writes 1 and
returns true; once it is 1 it stays 1; and in every run at most one
compare-and-swap returns true (exactly as many as the value of `done`). -/
theorem done_flag_set_at_most_once (cfg : Config) (evs : List Event) :
    initState.done = 0 ∧
    ((run cfg evs).done = 0 ∨ (run cfg evs).done = 1) ∧
    (∀ ev, (step cfg (run cfg evs) ev).done = (run cfg evs).done ∨
      ((run cfg evs).done = 0 ∧ (step cfg (run cfg evs) ev).done = 1 ∧
        ∃ path, (step cfg (run cfg evs) ev).trace
          = (run cfg evs).trace ++ [.compareAndSwap path true])) ∧
    (∀ more, (run cfg evs).done = 1 → (run cfg (evs ++ more)).done = 1) ∧
    swapsWon (run cfg evs).trace ≤ 1 ∧
    ((swapsWon (run cfg evs).trace : Int) = (run cfg evs).done) := by
  have hr := run_reachable cfg evs
  refine ⟨rfl, hr.done01, fun ev => step_done cfg _ ev, ?_, ?_, ?_⟩
  · intro more h
    unfold run
    rw [runFrom_append]
    exact runFrom_done_stays cfg _ more h
  · have h1 := hr.done01
    have h2 := hr.swaps
    rw [hr.swapsTotal]
    omega
  · rw [hr.swapsTotal, hr.swaps]

/-- C6 at a concrete run: after the accept path has set `done`, a later
successful dial leaves it at 1. -/
theorem done_flag_set_at_most_once_witness :
    (run ⟨"demo", 51000⟩ ([.lookupSend ⟨["127.0.0.1:51200", "demo"]⟩, .electionRecv,
      .acceptReturn (some 7)] ++ [.dialReturn (some 8)])).done = 1 :=
  (done_flag_set_at_most_once ⟨"demo", 51000⟩
    [.lookupSend ⟨["127.0.0.1:51200", "demo"]⟩, .electionRecv,
      .acceptReturn (some 7)]).2.2.2.1 [.dialReturn (some 8)] (by decide)

/-- C7, as stated, fails. After the pipe on connection 7 is started, the
writer finishes and hands its signal to `<-exit`; `main` returns with one
signal received, while the reader of the same pipe is still copying. -/
theorem main_returns_after_first_signal :
    (run ⟨"demo", 51000⟩ [.acceptReturn (some 7), .mainTeardown, .mainPipes,
      .copyDone 0 .stdinToConn, .exitHandoff 0 .stdinToConn]).main = .returned ∧
    exitReceives (run ⟨"demo", 51000⟩ [.acceptReturn (some 7), .mainTeardown, .mainPipes,
      .copyDone 0 .stdinToConn, .exitHandoff 0 .stdinToConn]).trace = 1 ∧
    (run ⟨"demo", 51000⟩ [.acceptReturn (some 7), .mainTeardown, .mainPipes,
      .copyDone 0 .stdinToConn, .exitHandoff 0 .stdinToConn]).pipes
      = [⟨7, .stopped, .copying⟩] := by
  decide

/-- C7, amended: `main` receives from the exit channel once and returns as
soon as ONE copy direction has signalled. It returns only in a step that
hands over the signal of a copy goroutine standing at `exit <- true`, and a
goroutine stands there only after its own copy loop has ended (a new pipe
starts with both directions copying). That handoff fires whatever the state
of the other direction, which it leaves as it is. So in every run `main` has
returned exactly when one signal has been received, it has not returned while
none has been, it never receives a second one, and the number of copy
goroutines that have handed over a signal is the number received. -/
theorem main_returns_after_one_signal (cfg : Config) (evs : List Event) :
    (∀ (s : State) (ev : Event), s.main ≠ .returned → (step cfg s ev).main = .returned →
      ∃ i dir p, ev = .exitHandoff i dir ∧ s.main = .waiting ∧ s.pipes[i]? = some p ∧
        p.get dir = .sending) ∧
    (∀ (s : State) (ev : Event) (i : Nat) (dir : Direction) (p q : Pipe),
      s.pipes[i]? = some p → (step cfg s ev).pipes[i]? = some q → q.get dir = .sending →
      p.get dir = .sending ∨ (ev = .copyDone i dir ∧ p.get dir = .copying)) ∧
    (∀ (conn : Conn) (dir : Direction), (setupPipes conn).get dir = .copying) ∧
    (∀ (s : State) (i : Nat) (dir : Direction) (p : Pipe), s.crashed = false →
      s.main = .waiting → s.pipes[i]? = some p → p.get dir = .sending →
      (step cfg s (.exitHandoff i dir)).main = .returned ∧
      (step cfg s (.exitHandoff i dir)).trace = s.trace ++ [.exitReceive] ∧
      ∃ q, (step cfg s (.exitHandoff i dir)).pipes[i]? = some q ∧ q.get dir = .stopped ∧
        ∀ other, other ≠ dir → q.get other = p.get other) ∧
    ((run cfg evs).main = .returned ↔ exitReceives (run cfg evs).trace = 1) ∧
    ((run cfg evs).main ≠ .returned ↔ exitReceives (run cfg evs).trace = 0) ∧
    exitReceives (run cfg evs).trace ≤ 1 ∧
    signalsHanded (run cfg evs).pipes = exitReceives (run cfg evs).trace ∧
    ((run cfg evs).main = .returned → 1 ≤ pipesStarted (run cfg evs).trace) := by
  have hr := run_reachable cfg evs
  have h1 := hr.exits
  have h2 := hr.exitsAfterPipe
  have h3 := hr.pipesList
  refine ⟨fun s ev => step_returns_only_by_handoff cfg s ev,
    fun s ev i dir p q => step_sending_only_by_copyDone cfg s ev i dir p q,
    fun conn dir => by cases dir <;> rfl, ?_, ?_⟩
  · intro s i dir p hc hm hp hs
    have hlive : ¬ (s.crashed = true ∨ s.main = .returned) := by simp [hc, hm]
    have hstep : step cfg s (.exitHandoff i dir) =
        { s with main := .returned,
                 pipes := updatePipe (fun q => q.set dir .stopped) i s.pipes,
                 trace := s.trace ++ [.exitReceive] } := by
      unfold step
      rw [if_neg hlive]
      simp only [stepLive, hm, hp, hs, if_true]
    rw [hstep]
    refine ⟨rfl, rfl, p.set dir .stopped, updatePipe_getElem? _ i s.pipes p hp, ?_, ?_⟩
    · cases dir <;> rfl
    · intro other hne
      cases dir <;> cases other <;> first | rfl | exact absurd rfl hne
  · have hsig := run_signals cfg evs
    unfold mainReturned at h1 h2
    split at h1
    · rename_i hm
      simp only [hm] at h2
      simp [hm, h1, hsig]
      omega
    · rename_i hm
      have hne : (run cfg evs).main ≠ .returned := fun h => hm h
      simp [hne, h1, hsig]

/-- C7 amended, at a concrete state: the pipe on connection 7 runs, its writer
has finished and stands at `exit <- true`, its reader is still copying; the
handoff makes `main` return. -/
theorem main_returns_after_one_signal_witness :
    (step ⟨"demo", 51000⟩
      (run ⟨"demo", 51000⟩ [.acceptReturn (some 7), .mainTeardown, .mainPipes,
        .copyDone 0 .stdinToConn])
      (.exitHandoff 0 .stdinToConn)).main = .returned :=
  ((main_returns_after_one_signal ⟨"demo", 51000⟩ []).2.2.2.1
    (run ⟨"demo", 51000⟩ [.acceptReturn (some 7), .mainTeardown, .mainPipes,
      .copyDone 0 .stdinToConn])
    0 .stdinToConn ⟨7, .sending, .copying⟩
    (by decide) (by decide) (by decide) (by decide)).1

/-- C8: when the accept path wins the swap (a connection is accepted while
`done = 0`) it closes `entriesCh` and shuts the advertiser down, then calls
`setupPipes`, and `listener.Close()` is never called: the dial path of lines
86-88 closes the listener, the accept path of lines 116-117 does not. -/
theorem accept_win_leaves_listener_open :
    (run ⟨"demo", 51000⟩ [.acceptReturn (some 7), .mainTeardown, .mainPipes]).trace =
      [.compareAndSwap .accept true, .closeEntriesCh, .mdnsShutdown, .setupPipes .accept 7] ∧
    listenerCloses (run ⟨"demo", 51000⟩
      [.acceptReturn (some 7), .mainTeardown, .mainPipes]).trace = 0 ∧
    (run ⟨"demo", 51000⟩ [.lookupSend ⟨["127.0.0.1:51200", "demo"]⟩, .electionRecv,
      .dialReturn (some 8), .electionTeardown, .electionPipes]).trace =
      [.compareAndSwap .dial true, .listenerClose, .closeEntriesCh, .mdnsShutdown,
        .setupPipes .dial 8] := by
  decide

/-- In every run each of the three resources is released at most once, the
queue and the advertiser exactly once as soon as the winner has run its
teardown lines, and the listener only by the dial path: a run in which the
accept path wins the swap never closes the listener. -/
theorem teardown_counts (cfg : Config) (evs : List Event) :
    listenerCloses (run cfg evs).trace ≤ 1 ∧
    queueCloses (run cfg evs).trace ≤ 1 ∧
    advertiserShutdowns (run cfg evs).trace ≤ 1 ∧
    queueCloses (run cfg evs).trace = advertiserShutdowns (run cfg evs).trace ∧
    (swapsWonBy .accept (run cfg evs).trace = 1 → listenerCloses (run cfg evs).trace = 0) ∧
    (swapsWon (run cfg evs).trace = 1 → electionPending (run cfg evs) = 0 →
      mainPending (run cfg evs) = 0 →
      queueCloses (run cfg evs).trace = 1 ∧ advertiserShutdowns (run cfg evs).trace = 1) := by
  have hr := run_reachable cfg evs
  have h1 := hr.done01
  have h2 := hr.swaps
  have h3 := hr.swapsTotal
  have h4 := hr.listener
  have h5 := hr.queue
  have h7 := hr.advertiser
  refine ⟨by omega, by omega, by omega, by omega, by omega, ?_⟩
  intro ha hb hc
  omega

/-! ## Malformed entries (claim C9) -/

/-- C9: an entry with the local name whose address field has no `":"` is
fatal. `strings.Split` gives one piece, `parts[1]` is out of range, so
`parsePort` panics instead of returning an error, and the panic in the
election goroutine ends the process. -/
theorem entry_without_colon_is_fatal :
    parsePort "localhost" = .panicked ∧
    evalEntry "demo" 51000 ⟨["localhost", "demo"]⟩ = .panicked ∧
    (run ⟨"demo", 51000⟩ [.lookupSend ⟨["localhost", "demo"]⟩, .electionRecv]).crashed
      = true := by
  decide

/-- The other malformed entries are not fatal: the verdict is a panic exactly
for an entry that passes the filter and whose address has no `":"`. An
entry with missing fields or another name is skipped silently, and one whose
port part is empty or not a number is reported and skipped. -/
theorem evalEntry_panicked_iff (name : String) (port : Int) (entry : ServiceEntry) :
    evalEntry name port entry = .panicked ↔
      ∃ addr more, entry.InfoFields = addr :: name :: more ∧ ':' ∉ addr.data := by
  obtain ⟨fields⟩ := entry
  unfold evalEntry
  match fields with
  | [] => simp
  | [f0] => simp
  | f0 :: f1 :: more =>
    have hl : ¬ (more.length + 1 + 1 < 2) := by omega
    by_cases hn : f1 = name
    · subst hn
      have hp := parsePort_panicked_iff f0
      cases hpp : parsePort f0 with
      | ok v =>
        rw [hpp] at hp
        have : ':' ∈ f0.data := by
          by_contra hcon
          exact absurd (hp.mpr hcon) (by simp)
        by_cases hle : v ≤ port <;> simp [hpp, hle, this, hl]
      | err =>
        rw [hpp] at hp
        have : ':' ∈ f0.data := by
          by_contra hcon
          exact absurd (hp.mpr hcon) (by simp)
        simp [hpp, this, hl]
      | panicked =>
        rw [hpp] at hp
        have := hp.mp rfl
        simp [hpp, this]
    · have hn2 : ¬ name = f1 := fun h => hn h.symm
      simp [hn, hn2]

/-! ## Argument validation (claim C10) -/

/-- C10: with `os.Args = prog :: args`, `main` prints the usage text and calls
`os.Exit(1)`, and does nothing else, if and only if there is not exactly one
argument or the trimmed argument has `len` below 2. In that case no listener
is bound and no advertisement is registered; otherwise nothing is printed and
`os.Exit` is not called. -/
theorem mainStartup_usage_iff (prog : String) (args : List String)
    (listenPort : Option Nat) (mdnsOk : Bool) :
    ((mainStartup prog args listenPort mdnsOk).1 = [.printf (usage prog), .osExit 1] ↔
      (args.length ≠ 1 ∨ ∃ a, args = [a] ∧ len (TrimSpace a) < 2)) ∧
    ((args.length ≠ 1 ∨ ∃ a, args = [a] ∧ len (TrimSpace a) < 2) →
      (mainStartup prog args listenPort mdnsOk).2 = none ∧
      ∀ c ∈ (mainStartup prog args listenPort mdnsOk).1,
        (∀ network address, c ≠ .netListen network address) ∧ (∀ info, c ≠ .setupMDNS info)) ∧
    (¬ (args.length ≠ 1 ∨ ∃ a, args = [a] ∧ len (TrimSpace a) < 2) →
      ∀ c ∈ (mainStartup prog args listenPort mdnsOk).1,
        (∀ text, c ≠ .printf text) ∧ (∀ status, c ≠ .osExit status)) := by
  match args with
  | [] => simp [mainStartup]
  | _ :: _ :: _ => simp [mainStartup]
  | [a] =>
    by_cases hlen : len (TrimSpace a) < 2
    · simp [mainStartup, hlen]
    · simp only [mainStartup, List.length_cons, List.length_nil, ne_eq, not_true_eq_false,
        dite_false, List.getElem_cons_succ, List.getElem_cons_zero, hlen, if_false]
      cases listenPort with
      | none => simp [hlen]
      | some p =>
        cases hpp : parsePort (listenerAddr p) <;> cases mdnsOk <;> simp [hlen, hpp]

/-- C10 at the inputs named by the claim: no argument, two arguments and the
name "x" are rejected with the usage text and exit status 1. -/
theorem mainStartup_usage_iff_witness :
    (mainStartup "gopaste" [] (some 51000) true).1
      = [.printf (usage "gopaste"), .osExit 1] ∧
    (mainStartup "gopaste" ["demo", "extra"] (some 51000) true).1
      = [.printf (usage "gopaste"), .osExit 1] ∧
    (mainStartup "gopaste" ["x"] (some 51000) true).1
      = [.printf (usage "gopaste"), .osExit 1] :=
  ⟨(mainStartup_usage_iff "gopaste" [] (some 51000) true).1.mpr (Or.inl (by decide)),
   (mainStartup_usage_iff "gopaste" ["demo", "extra"] (some 51000) true).1.mpr
     (Or.inl (by decide)),
   (mainStartup_usage_iff "gopaste" ["x"] (some 51000) true).1.mpr
     (Or.inr ⟨"x", rfl, by decide⟩)⟩

end Gopaste
